import Mathlib

set_option maxRecDepth 8000
set_option maxHeartbeats 2000000

/-!
Verification of the replicated card-game state machine implemented in
`src/app/lib/supabaseClient.ts`.

The TypeScript source is shallowly embedded: every definition below mirrors
one function or data type of the source file.  JavaScript arrays become
`List`, `null`/`undefined` slots become `none`, the `players` record becomes
an association list (JS object insertion-order semantics: updating an
existing key keeps its position, a new key is appended), and the random
source (`Math.random` / `Date.now`) is passed in explicitly as parameters
(an id stream `Nat → String` and swap-index streams `Nat → Nat`), so that
"for every behavior of the random source" becomes ordinary universal
quantification.

Handlers that publish on the realtime channel are modelled as functions
returning the new local `GameState` together with the list of `state`
snapshots published during the call (`updateAndBroadcast`).
-/

namespace CardGame

/-- `Card` from the source: `{id, rank, suit, color, jokerImage?}`.
Union string types of TS are kept as `String`. -/
structure Card where
  id : String
  rank : String
  suit : String
  color : String
  jokerImage : Option String
deriving DecidableEq

/-- `PlayerRow = (Card | null)[]`; `none` is an empty slot (JS `null`, and
also the `undefined` produced by out-of-range reads, which the UI renders
identically to `null`). -/
abbrev PlayerRow := List (Option Card)

/-- `PlayerBoard` from the source. -/
structure PlayerBoard where
  id : String
  name : String
  isHost : Bool
  handRow : PlayerRow
  tableRow : PlayerRow
  submitted : Bool
  finished : Bool
deriving DecidableEq

/-- `LastDiscardInfo` from the source. -/
structure LastDiscardInfo where
  ownerId : Option String
  fromRow : Option String
  fromIndex : Option Nat
  faceDown : Bool
deriving DecidableEq

/-- `TrumpRequest` from the source; `status` is one of
`"pending" | "approved" | "rejected"`. -/
structure TrumpRequest where
  requesterId : String
  approverId : String
  status : String
deriving DecidableEq

/-- `GameState` from the source; `status` is `"lobby" | "playing" | "finished"`.
`players : Record<string, PlayerBoard>` is an association list. -/
structure GameState where
  id : String
  inviteCode : String
  status : String
  hostId : String
  playerOrder : List String
  activePlayerId : String
  deck : List Card
  discardPile : List Card
  players : List (String × PlayerBoard)
  lastDiscardInfo : LastDiscardInfo
  hasDrawnThisTurn : Bool
  hasDiscardedThisTurn : Bool
  trumpCard : Option Card
  trumpViewers : List String
  pendingTrumpRequest : Option TrumpRequest
deriving DecidableEq

/-- JS record read `players[k]`: `undefined` becomes `none`. -/
def getPlayer (m : List (String × PlayerBoard)) (k : String) : Option PlayerBoard :=
  (m.find? (fun kv => kv.1 = k)).map (fun kv => kv.2)

/-- JS record update `{ ...players, [k]: v }`: an existing key keeps its
position and gets the new value, a new key is appended at the end. -/
def setPlayer (m : List (String × PlayerBoard)) (k : String) (v : PlayerBoard) :
    List (String × PlayerBoard) :=
  if m.any (fun kv => kv.1 = k) then
    m.map (fun kv => if kv.1 = k then (k, v) else kv)
  else m ++ [(k, v)]

/-- JS `arr.splice(i, 0, x)`: the start index is clamped to the array length,
so an overlarge index appends at the end (unlike `List.insertIdx`, which
would leave the list unchanged). -/
def jsInsertIdx (i : Nat) (x : α) (l : List α) : List α :=
  l.insertIdx (min i l.length) x

/-- The all-`null` `lastDiscardInfo` value the source resets to. -/
def emptyDiscardInfo : LastDiscardInfo :=
  { ownerId := none, fromRow := none, fromIndex := none, faceDown := false }

/-- Index of the last `null` slot in a row: JS `row.lastIndexOf(null)`,
with `none` standing for the JS result `-1`. -/
def lastNullIdx : List (Option Card) → Option Nat
  | [] => none
  | x :: xs =>
    match lastNullIdx xs with
    | some k => some (k + 1)
    | none => if x = none then some 0 else none

/-- `moveWithinRow(row, fromIndex, toIndex)` from the source:
`splice(fromIndex, 1)` removes the element (or yields `undefined` when the
index is out of range), then `splice(toIndex, 0, card)` reinserts it at the
clamped target index. -/
def moveWithinRow (row : PlayerRow) (fromIndex toIndex : Nat) : PlayerRow :=
  jsInsertIdx toIndex ((row[fromIndex]?).getD none) (row.eraseIdx fromIndex)

/-- `moveBetweenRows(fromRow, toRow, fromIndex, toIndex)` from the source:
remove the card from `fromRow` and push a trailing `null`; insert the card
into `toRow` at `toIndex`; then remove the last `null` of the grown row if
one exists, otherwise `pop()` the final element. -/
def moveBetweenRows (fromRow toRow : PlayerRow) (fromIndex toIndex : Nat) :
    PlayerRow × PlayerRow :=
  let card := (fromRow[fromIndex]?).getD none
  let newFrom := fromRow.eraseIdx fromIndex ++ [none]
  let grown := jsInsertIdx toIndex card toRow
  match lastNullIdx grown with
  | some k => (newFrom, grown.eraseIdx k)
  | none => (newFrom, grown.dropLast)

/-- The first-empty-slot placement used by draw / take-from-discard and the
fallback branch of the undo operations: `findIndex(c => c === null)`, writing
into that slot, or overwriting the last slot when the row is full. -/
def placeInHand (row : PlayerRow) (card : Card) : PlayerRow :=
  match row.findIdx? (fun c => c = none) with
  | some j => row.set j (some card)
  | none => row.set (row.length - 1) (some card)

/-! ### Deck generator -/

/-- `RANKS` from the source. -/
def RANKS : List String :=
  ["A", "2", "3", "4", "5", "6", "7", "8", "9", "10", "J", "Q", "K"]

/-- `SUITS` from the source (the four non-joker suits). -/
def SUITS : List String :=
  ["hearts", "diamonds", "clubs", "spades"]

/-- `JOKER_IMAGES` from the source: `/jokers/joker1.png` .. `/jokers/joker30.png`. -/
def JOKER_IMAGES : List String :=
  (List.range 30).map (fun i => "/jokers/joker" ++ toString (i + 1) ++ ".png")

/-- One swap step of the source `shuffle` (Fisher-Yates):
`[a[i], a[j]] = [a[j], a[i]]`.  Both indices are always in range at the call
sites; out-of-range inputs leave the list unchanged. -/
def jsSwap (l : List α) (i j : Nat) : List α :=
  match l[i]?, l[j]? with
  | some a, some b => (l.set i b).set j a
  | _, _ => l

/-- The loop of `shuffle`: for `i` from `a.length - 1` down to `1`, swap
position `i` with position `j = Math.floor(Math.random() * (i + 1))`.
The random draws are supplied by `js : Nat → Nat`; since the JS value always
lies in `[0, i]`, the stream value is clamped with `min`. -/
def fyAux (js : Nat → Nat) : Nat → List α → List α
  | 0, a => a
  | i + 1, a => fyAux js i (jsSwap a (i + 1) (min (js (i + 1)) (i + 1)))

/-- `shuffle(arr)` from the source, parametrized by the random stream. -/
def jsShuffle (js : Nat → Nat) (arr : List α) : List α :=
  fyAux js (arr.length - 1) arr

/-- `pickJokerImages()` from the source: shuffle the image pool and keep the
first 9 entries. -/
def pickJokerImages (js : Nat → Nat) : List String :=
  (jsShuffle js JOKER_IMAGES).take 9

/-- The `(rank, suit)` pairs pushed by the nested loops of `generateDeck`:
3 repetitions of (4 suits × 13 ranks). -/
def stdPairs : List (String × String) :=
  (List.range 3).flatMap (fun _ =>
    SUITS.flatMap (fun suit => RANKS.map (fun rank => (rank, suit))))

/-- The 156 standard cards pushed by the nested loops of `generateDeck`,
consuming `randomId()` results 0..155 in loop order. -/
def stdCards (ids : Nat → String) : List Card :=
  stdPairs.enum.map (fun p =>
    { id := ids p.1, rank := p.2.1, suit := p.2.2,
      color := if p.2.2 = "hearts" ∨ p.2.2 = "diamonds" then "red" else "black",
      jokerImage := none : Card })

/-- The 9 joker cards pushed by `generateDeck`, consuming `randomId()`
results 156..164 and the picked joker images. -/
def jokerCards (ids : Nat → String) (jsImg : Nat → Nat) : List Card :=
  (List.range 9).map (fun j =>
    { id := ids (156 + j), rank := "JOKER", suit := "joker", color := "red",
      jokerImage := (pickJokerImages jsImg)[j]? : Card })

/-- `generateDeck()` from the source.  `ids` is the stream of `randomId()`
results (`Math.random().toString(36).substring(2,10) + Date.now().toString(36)`:
an arbitrary, not necessarily injective, string stream); `jsImg` and `jsDeck`
are the random streams of the two `shuffle` calls. -/
def generateDeck (ids : Nat → String) (jsImg jsDeck : Nat → Nat) : List Card :=
  jsShuffle jsDeck (stdCards ids ++ jokerCards ids jsImg)

/-! ### Handlers

Each `handleX` mirrors the corresponding source function for the acting
player `playerId`.  The first component of the result is the new local
snapshot; the second lists the `state` messages published on the channel
during the call.  `updateAndBroadcast` publishes whatever the updater
returns — including the unchanged `prev` that the updaters return on a
failed precondition (`if (!updated) return prev` only guards against `null`,
and no updater returns `null`). -/

def updateAndBroadcast (updater : GameState → GameState) (prev : GameState) :
    GameState × List GameState :=
  (updater prev, [updater prev])

/-- The updater closure of `handleDrawFromDeck`.  The `none` branch of the
board lookup is unreachable: the surrounding handler has already checked
that the player exists. -/
def drawFromDeckUpdater (playerId : String) (prev : GameState) : GameState :=
  if prev.hasDrawnThisTurn then prev
  else if prev.deck.length = 0 then prev
  else
    match prev.deck.getLast?, getPlayer prev.players playerId with
    | some card, some myBoard =>
      { prev with
        deck := prev.deck.dropLast,
        players := setPlayer prev.players playerId
          { myBoard with handRow := placeInHand myBoard.handRow card },
        hasDrawnThisTurn := true }
    | _, _ => prev

/-- `handleDrawFromDeck`: outer guards (`!gameState || !playerId`, `!isMyTurn`)
return without publishing anything. -/
def handleDrawFromDeck (playerId : String) (s : GameState) :
    GameState × List GameState :=
  match getPlayer s.players playerId with
  | none => (s, [])
  | some me =>
    if s.activePlayerId = me.id then updateAndBroadcast (drawFromDeckUpdater playerId) s
    else (s, [])

/-- The updater closure of `handleDiscardCard`. -/
def discardCardUpdater (playerId fromRow : String) (index : Nat)
    (prev : GameState) : GameState :=
  if prev.hasDiscardedThisTurn then prev
  else
    match getPlayer prev.players playerId with
    | none => prev
    | some myBoard =>
      if fromRow = "hand" then
        match myBoard.handRow[index]? with
        | some (some card) =>
          { prev with
            players := setPlayer prev.players playerId
              { myBoard with handRow := myBoard.handRow.eraseIdx index ++ [none] },
            discardPile := prev.discardPile ++ [card],
            hasDiscardedThisTurn := true,
            lastDiscardInfo :=
              { ownerId := some playerId, fromRow := some fromRow,
                fromIndex := some index, faceDown := false } }
        | _ => prev
      else
        match myBoard.tableRow[index]? with
        | some (some card) =>
          { prev with
            players := setPlayer prev.players playerId
              { myBoard with tableRow := myBoard.tableRow.eraseIdx index ++ [none] },
            discardPile := prev.discardPile ++ [card],
            hasDiscardedThisTurn := true,
            lastDiscardInfo :=
              { ownerId := some playerId, fromRow := some fromRow,
                fromIndex := some index, faceDown := false } }
        | _ => prev

/-- `handleDiscardCard`. -/
def handleDiscardCard (playerId fromRow : String) (index : Nat) (s : GameState) :
    GameState × List GameState :=
  match getPlayer s.players playerId with
  | none => (s, [])
  | some me =>
    if s.activePlayerId = me.id then
      updateAndBroadcast (discardCardUpdater playerId fromRow index) s
    else (s, [])

/-- The row pair produced by the shared reinsertion logic of
`handleUndoDiscard` / `handleUndoFinish`: insert the popped card at the
recorded row and index (`splice(i, 0, card)` then `pop()`), or into the
first empty hand slot when no position was recorded. -/
def reinsertRows (info : LastDiscardInfo) (card : Card)
    (handRow tableRow : PlayerRow) : PlayerRow × PlayerRow :=
  match info.fromRow, info.fromIndex with
  | some "hand", some i => ((jsInsertIdx i (some card) handRow).dropLast, tableRow)
  | some "table", some i => (handRow, (jsInsertIdx i (some card) tableRow).dropLast)
  | _, _ => (placeInHand handRow card, tableRow)

/-- The updater closure of `handleUndoDiscard`. -/
def undoDiscardUpdater (playerId : String) (prev : GameState) : GameState :=
  if prev.lastDiscardInfo.ownerId = none ∨
      prev.lastDiscardInfo.ownerId ≠ some playerId ∨
      prev.lastDiscardInfo.faceDown then prev
  else
    match prev.discardPile.getLast?, getPlayer prev.players playerId with
    | some card, some myBoard =>
      let rows := reinsertRows prev.lastDiscardInfo card myBoard.handRow myBoard.tableRow
      { prev with
        players := setPlayer prev.players playerId
          { myBoard with handRow := rows.1, tableRow := rows.2 },
        discardPile := prev.discardPile.dropLast,
        hasDiscardedThisTurn := false,
        lastDiscardInfo := emptyDiscardInfo }
    | _, _ => prev

/-- `handleUndoDiscard`: outer guard `!isMyTurn` returns without publishing. -/
def handleUndoDiscard (playerId : String) (s : GameState) :
    GameState × List GameState :=
  match getPlayer s.players playerId with
  | none => (s, [])
  | some me =>
    if s.activePlayerId = me.id then updateAndBroadcast (undoDiscardUpdater playerId) s
    else (s, [])

/-- The updater closure of `handleDeclareFinish`: the only precondition is a
non-empty discard pile — there is no status check and no active-player
check. -/
def declareFinishUpdater (playerId : String) (prev : GameState) : GameState :=
  if prev.discardPile.length = 0 then prev
  else
    match getPlayer prev.players playerId with
    | none => prev
    | some myBoard =>
      { prev with
        players := setPlayer prev.players playerId { myBoard with finished := true },
        status := "finished",
        lastDiscardInfo := { prev.lastDiscardInfo with faceDown := true } }

/-- `handleDeclareFinish`: no outer guards beyond a non-null state/player. -/
def handleDeclareFinish (playerId : String) (s : GameState) :
    GameState × List GameState :=
  updateAndBroadcast (declareFinishUpdater playerId) s

/-- The updater closure of `handleUndoFinish`.  Note that besides reversing
the finish it also pops the top discard back into the recorded row slot and
clears `lastDiscardInfo`; it does not touch `hasDiscardedThisTurn`. -/
def undoFinishUpdater (playerId : String) (prev : GameState) : GameState :=
  if ¬ prev.lastDiscardInfo.faceDown ∨
      prev.lastDiscardInfo.ownerId ≠ some playerId then prev
  else
    match prev.discardPile.getLast?, getPlayer prev.players playerId with
    | some card, some myBoard =>
      let rows := reinsertRows prev.lastDiscardInfo card myBoard.handRow myBoard.tableRow
      { prev with
        players := setPlayer prev.players playerId
          { myBoard with handRow := rows.1, tableRow := rows.2, finished := false },
        discardPile := prev.discardPile.dropLast,
        status := "playing",
        lastDiscardInfo := emptyDiscardInfo }
    | _, _ => prev

/-- `handleUndoFinish`: no outer guards beyond a non-null state/player. -/
def handleUndoFinish (playerId : String) (s : GameState) :
    GameState × List GameState :=
  updateAndBroadcast (undoFinishUpdater playerId) s

/-! ### Start game -/

/-- The hand dealt to the player at position `i` of `playerOrder`:
slots 0..20 receive `deckAll[deckIndex++]` (an out-of-range read yields an
empty slot, like JS `undefined`), slot 21 stays `null`. -/
def dealtHand (deckAll : List Card) (i : Nat) : PlayerRow :=
  (List.range 22).map (fun j => if j < 21 then deckAll[21 * i + j]? else none)

/-- The `playersCopy` record built by the deal loop of `handleStartGame`:
a fresh record holding one board per id of `playerOrder`, in order.  A pid
missing from `prev.players` is skipped (in JS this would spread `undefined`;
it is unreachable because every id in `playerOrder` has a board). -/
def startPlayers (deckAll : List Card) (playerIds : List String)
    (prev : List (String × PlayerBoard)) : List (String × PlayerBoard) :=
  playerIds.enum.foldl (fun acc p =>
    match getPlayer prev p.2 with
    | some b =>
      setPlayer acc p.2
        { b with handRow := dealtHand deckAll p.1,
                 tableRow := List.replicate 22 none,
                 submitted := false, finished := false }
    | none => acc) []

/-- The updater closure of `handleStartGame`, with the freshly generated
deck passed in (the claim quantifies over all shuffles).  The trump `while`
loop runs at most one iteration: it takes the card at the current deck index
when that card is not a joker, and otherwise `break`s with `trumpCard` still
`null` and the index unmoved — so a joker at that position becomes the open
discard card and no trump is consumed.  `chosen` models
`chosenFirstPlayerId || playerIds[0]` (`none` for JS `null`/empty). -/
def startGameUpdater (deckAll : List Card) (chosen : Option String)
    (prev : GameState) : GameState :=
  if prev.playerOrder.length < 2 ∨ 5 < prev.playerOrder.length then prev
  else
    let i0 := 21 * prev.playerOrder.length
    let trumpAndIdx : Option Card × Nat :=
      match deckAll[i0]? with
      | some candidate =>
        if candidate.suit ≠ "joker" then (some candidate, i0 + 1) else (none, i0)
      | none => (none, i0)
    { prev with
      players := startPlayers deckAll prev.playerOrder prev.players,
      deck := deckAll.drop (trumpAndIdx.2 + 1),
      discardPile := (deckAll[trumpAndIdx.2]?).toList,
      status := "playing",
      activePlayerId := chosen.getD prev.playerOrder.headI,
      hasDrawnThisTurn := false,
      hasDiscardedThisTurn := false,
      lastDiscardInfo := emptyDiscardInfo,
      trumpCard := trumpAndIdx.1,
      trumpViewers := [],
      pendingTrumpRequest := none }

/-- `handleStartGame`: only the host reaches `updateAndBroadcast`. -/
def handleStartGame (playerId : String) (deckAll : List Card)
    (chosen : Option String) (s : GameState) : GameState × List GameState :=
  match getPlayer s.players playerId with
  | none => (s, [])
  | some me =>
    if me.isHost then updateAndBroadcast (startGameUpdater deckAll chosen) s
    else (s, [])

/-! ### Trump request / approve / reject -/

/-- The updater closure of `handleRequestTrump`.  The approver is the next
player after the requesting host in turn order (JS
`playerOrder[(indexOf(me.id) + 1) % length]`, where `indexOf` yields `-1`
for an absent id, making the next index `0`), or the host for a non-host
requester. -/
def requestTrumpUpdater (me : PlayerBoard) (prev : GameState) : GameState :=
  if prev.pendingTrumpRequest.any (fun req => req.status = "pending") then prev
  else if prev.trumpViewers.contains me.id then prev
  else
    let nextIdx :=
      (if prev.playerOrder.contains me.id then prev.playerOrder.indexOf me.id + 1
       else 0) % prev.playerOrder.length
    let approverId :=
      if me.isHost then (prev.playerOrder[nextIdx]?).getD "" else prev.hostId
    { prev with
      pendingTrumpRequest :=
        some { requesterId := me.id, approverId := approverId, status := "pending" } }

/-- `handleRequestTrump`: outer guards (`!me`, `!isMyTurn`, `!trumpCard`)
return without publishing. -/
def handleRequestTrump (playerId : String) (s : GameState) :
    GameState × List GameState :=
  match getPlayer s.players playerId with
  | none => (s, [])
  | some me =>
    if s.activePlayerId ≠ me.id then (s, [])
    else if s.trumpCard = none then (s, [])
    else updateAndBroadcast (requestTrumpUpdater me) s

/-- The updater closure of `handleApproveTrump`. -/
def approveTrumpUpdater (me : PlayerBoard) (prev : GameState) : GameState :=
  match prev.pendingTrumpRequest, prev.trumpCard with
  | some req, some _ =>
    if req.approverId ≠ me.id ∨ req.status ≠ "pending" then prev
    else
      { prev with
        trumpViewers :=
          if prev.trumpViewers.contains req.requesterId then prev.trumpViewers
          else prev.trumpViewers ++ [req.requesterId],
        pendingTrumpRequest := some { req with status := "approved" } }
  | _, _ => prev

/-- `handleApproveTrump`. -/
def handleApproveTrump (playerId : String) (s : GameState) :
    GameState × List GameState :=
  match getPlayer s.players playerId with
  | none => (s, [])
  | some me => updateAndBroadcast (approveTrumpUpdater me) s

/-- The updater closure of `handleRejectTrump`. -/
def rejectTrumpUpdater (me : PlayerBoard) (prev : GameState) : GameState :=
  match prev.pendingTrumpRequest with
  | some req =>
    if req.approverId ≠ me.id ∨ req.status ≠ "pending" then prev
    else { prev with pendingTrumpRequest := some { req with status := "rejected" } }
  | none => prev

/-- `handleRejectTrump`. -/
def handleRejectTrump (playerId : String) (s : GameState) :
    GameState × List GameState :=
  match getPlayer s.players playerId with
  | none => (s, [])
  | some me => updateAndBroadcast (rejectTrumpUpdater me) s

/-! ### Helper lemmas -/

theorem getPlayer_map_set : ∀ (m : List (String × PlayerBoard)) (k : String)
    (v : PlayerBoard), m.any (fun kv => kv.1 = k) →
    getPlayer (m.map (fun kv => if kv.1 = k then (k, v) else kv)) k = some v
  | [], k, v, h => by simp at h
  | kv :: tl, k, v, h => by
    by_cases hk : kv.1 = k
    · simp [getPlayer, List.find?_cons, hk]
    · have htl : tl.any (fun kv => kv.1 = k) := by
        simp only [List.any_cons] at h
        rcases Bool.or_eq_true_iff.mp h with h1 | h1
        · exact absurd (by simpa using h1) hk
        · exact h1
      have ih := getPlayer_map_set tl k v htl
      simpa [getPlayer, List.find?_cons, hk] using ih

theorem getPlayer_map_set_ne : ∀ (m : List (String × PlayerBoard)) (k k' : String)
    (v : PlayerBoard), k' ≠ k →
    getPlayer (m.map (fun kv => if kv.1 = k then (k, v) else kv)) k'
      = getPlayer m k'
  | [], k, k', v, hne => by simp [getPlayer]
  | kv :: tl, k, k', v, hne => by
    have ih := getPlayer_map_set_ne tl k k' v hne
    by_cases hk : kv.1 = k
    · have hk' : ¬ kv.1 = k' := fun hc => hne (hc.symm.trans hk)
      simp only [List.map_cons, if_pos hk]
      simpa [getPlayer, List.find?_cons, Ne.symm hne, hk'] using ih
    · by_cases hk' : kv.1 = k'
      · have hkk : ¬ kv.1 = k := hk
        simp [getPlayer, List.find?_cons, hk', hne, hkk]
      · simp only [List.map_cons, if_neg hk]
        simpa [getPlayer, List.find?_cons, hk'] using ih

theorem getPlayer_eq_none_of_not_any (m : List (String × PlayerBoard))
    (k : String) (h : ¬ m.any (fun kv => kv.1 = k) = true) :
    getPlayer m k = none := by
  induction m with
  | nil => simp [getPlayer]
  | cons kv tl ih =>
    have hk : ¬ kv.1 = k := fun hc => h (by simp [List.any_cons, hc])
    have htl : ¬ tl.any (fun kv => kv.1 = k) = true :=
      fun hc => h (by simp [List.any_cons, hc])
    simpa [getPlayer, List.find?_cons, hk] using ih htl

theorem getPlayer_append (m m' : List (String × PlayerBoard)) (k : String) :
    getPlayer (m ++ m') k =
      ((getPlayer m k).map some).getD (getPlayer m' k) := by
  induction m with
  | nil => simp [getPlayer]
  | cons kv tl ih =>
    by_cases hk : kv.1 = k
    · simp [getPlayer, List.find?_cons, hk]
    · simpa [getPlayer, List.find?_cons, hk] using ih

theorem getPlayer_setPlayer_self (m : List (String × PlayerBoard)) (k : String)
    (v : PlayerBoard) : getPlayer (setPlayer m k v) k = some v := by
  unfold setPlayer
  split
  case isTrue h => exact getPlayer_map_set m k v h
  case isFalse h =>
    rw [getPlayer_append, getPlayer_eq_none_of_not_any m k h]
    simp [getPlayer]

theorem getPlayer_setPlayer_ne (m : List (String × PlayerBoard)) (k k' : String)
    (v : PlayerBoard) (hne : k' ≠ k) :
    getPlayer (setPlayer m k v) k' = getPlayer m k' := by
  unfold setPlayer
  split
  · exact getPlayer_map_set_ne m k k' v hne
  · rw [getPlayer_append]
    have : getPlayer [(k, v)] k' = none := by
      simp [getPlayer, List.find?_cons, Ne.symm hne]
    rw [this]
    cases getPlayer m k' <;> simp

/-- Updating the same key twice keeps only the second update. -/
theorem setPlayer_setPlayer (m : List (String × PlayerBoard)) (k : String)
    (v w : PlayerBoard) : setPlayer (setPlayer m k v) k w = setPlayer m k w := by
  by_cases h : m.any (fun kv => kv.1 = k) = true
  · have h2 : (m.map (fun kv => if kv.1 = k then (k, v) else kv)).any
        (fun kv => kv.1 = k) = true := by
      rw [List.any_map]
      refine List.any_eq_true.mpr ?_
      rcases List.any_eq_true.mp h with ⟨kv, hmem, hkv⟩
      refine ⟨kv, hmem, ?_⟩
      simp only [decide_eq_true_eq] at hkv
      simp [Function.comp, hkv]
    simp only [setPlayer, if_pos h, if_pos h2, List.map_map]
    refine List.map_congr_left ?_
    intro kv _
    by_cases hk : kv.1 = k <;> simp [Function.comp, hk]
  · have h2 : ((m ++ [(k, v)]).any (fun kv => kv.1 = k)) = true := by
      simp [List.any_append]
    simp only [setPlayer, if_neg h, if_pos h2, List.map_append]
    have hmap : m.map (fun kv => if kv.1 = k then (k, w) else kv) = m := by
      refine (List.map_congr_left ?_).trans (List.map_id m)
      intro kv hmem
      have hk : ¬ kv.1 = k :=
        fun hk => h (List.any_eq_true.mpr ⟨kv, hmem, by simp [hk]⟩)
      simp [hk]
    simp [hmap]

/-- An element known by position can be moved to the front up to permutation. -/
theorem perm_cons_eraseIdx : ∀ (l : List α) (i : Nat) (a : α),
    l[i]? = some a → l.Perm (a :: l.eraseIdx i)
  | [], i, a, h => by simp at h
  | x :: xs, 0, a, h => by
    simp only [List.getElem?_cons_zero, Option.some.injEq] at h
    subst h
    simp [List.eraseIdx_cons_zero]
  | x :: xs, i + 1, a, h => by
    simp only [List.getElem?_cons_succ] at h
    have ih := perm_cons_eraseIdx xs i a h
    rw [List.eraseIdx_cons_succ]
    exact (ih.cons x).trans (List.Perm.swap a x _)

/-- Reinserting a removed element at its original index, after the row was
padded with one trailing slot, restores the row exactly. -/
theorem row_restore : ∀ (l : List α) (i : Nat) (x z : α), l[i]? = some x →
    (jsInsertIdx i x (l.eraseIdx i ++ [z])).dropLast = l
  | [], i, x, z, h => by simp at h
  | y :: tl, 0, x, z, h => by
    simp only [List.getElem?_cons_zero, Option.some.injEq] at h
    subst h
    simp only [List.eraseIdx_cons_zero, jsInsertIdx]
    rw [min_eq_left (by simp)]
    simp only [List.insertIdx_zero]
    rw [← List.cons_append]
    exact List.dropLast_concat
  | y :: tl, i + 1, x, z, h => by
    simp only [List.getElem?_cons_succ] at h
    have hlen : i < tl.length := by
      by_contra hc
      rw [List.getElem?_eq_none (Nat.le_of_not_lt hc)] at h
      exact Option.noConfusion h
    have ih := row_restore tl i x z h
    simp only [List.eraseIdx_cons_succ, List.cons_append, jsInsertIdx]
    have hmin : min (i + 1) (y :: (tl.eraseIdx i ++ [z])).length
        = min i (tl.eraseIdx i ++ [z]).length + 1 := by
      simp [Nat.succ_min_succ]
    rw [hmin, List.insertIdx_succ_cons]
    have hne : List.insertIdx (min i (tl.eraseIdx i ++ [z]).length) x
        (tl.eraseIdx i ++ [z]) ≠ [] := by
      intro hc
      have := congrArg List.length hc
      rw [List.length_insertIdx _ _ (min_le_right _ _)] at this
      simp at this
    rw [List.dropLast_cons_of_ne_nil hne]
    exact congrArg (y :: ·) ih

theorem lastNullIdx_spec : ∀ (l : List (Option Card)) (k : Nat),
    lastNullIdx l = some k → l[k]? = some none ∧ k < l.length
  | [], k, h => by simp [lastNullIdx] at h
  | x :: xs, k, h => by
    simp only [lastNullIdx] at h
    cases hxs : lastNullIdx xs with
    | some m =>
      rw [hxs] at h
      simp only [Option.some.injEq] at h
      subst h
      have := lastNullIdx_spec xs m hxs
      exact ⟨by simpa [List.getElem?_cons_succ] using this.1, by simpa using this.2⟩
    | none =>
      rw [hxs] at h
      by_cases hx : x = none
      · simp only [hx, if_true] at h
        simp only [Option.some.injEq] at h
        subst h
        simp [hx]
      · simp [hx] at h

theorem lastNullIdx_of_mem : ∀ (l : List (Option Card)), none ∈ l →
    ∃ k, lastNullIdx l = some k
  | [], h => by simp at h
  | x :: xs, h => by
    simp only [lastNullIdx]
    cases hxs : lastNullIdx xs with
    | some m => exact ⟨m + 1, rfl⟩
    | none =>
      rcases List.mem_cons.mp h with h1 | h1
      · exact ⟨0, by simp [h1.symm]⟩
      · rcases lastNullIdx_of_mem xs h1 with ⟨k, hk⟩
        rw [hk] at hxs
        exact Option.noConfusion hxs

/-- Swapping restores the list up to permutation: helper for `jsSwap`. -/
theorem cons_set_perm : ∀ (xs : List α) (j : Nat) (b x : α),
    xs[j]? = some b → (b :: xs.set j x).Perm (x :: xs)
  | [], j, b, x, h => by simp at h
  | y :: ys, 0, b, x, h => by
    simp only [List.getElem?_cons_zero, Option.some.injEq] at h
    subst h
    simp only [List.set_cons_zero]
    exact List.Perm.swap _ _ _
  | y :: ys, j + 1, b, x, h => by
    simp only [List.getElem?_cons_succ] at h
    have ih := cons_set_perm ys j b x h
    simp only [List.set_cons_succ]
    exact (List.Perm.swap y b _).trans ((ih.cons y).trans (List.Perm.swap x y ys))

theorem set_set_perm : ∀ (l : List α) (i j : Nat) (a b : α),
    l[i]? = some a → l[j]? = some b → ((l.set i b).set j a).Perm l
  | [], i, j, a, b, hi, hj => by simp at hi
  | x :: xs, 0, 0, a, b, hi, hj => by
    simp only [List.getElem?_cons_zero, Option.some.injEq] at hi hj
    subst hi; subst hj
    simp
  | x :: xs, 0, j + 1, a, b, hi, hj => by
    simp only [List.getElem?_cons_zero, Option.some.injEq] at hi
    simp only [List.getElem?_cons_succ] at hj
    subst hi
    simp only [List.set_cons_zero, List.set_cons_succ]
    exact cons_set_perm xs j _ _ hj
  | x :: xs, i + 1, 0, a, b, hi, hj => by
    simp only [List.getElem?_cons_zero, Option.some.injEq] at hj
    simp only [List.getElem?_cons_succ] at hi
    subst hj
    simp only [List.set_cons_succ, List.set_cons_zero]
    exact cons_set_perm xs i _ _ hi
  | x :: xs, i + 1, j + 1, a, b, hi, hj => by
    simp only [List.getElem?_cons_succ] at hi hj
    simp only [List.set_cons_succ]
    exact (set_set_perm xs i j a b hi hj).cons x

theorem jsSwap_perm (l : List α) (i j : Nat) : (jsSwap l i j).Perm l := by
  unfold jsSwap
  cases hi : l[i]? with
  | none => exact List.Perm.refl l
  | some a =>
    cases hj : l[j]? with
    | none => exact List.Perm.refl l
    | some b => exact set_set_perm l i j a b hi hj

theorem fyAux_perm (js : Nat → Nat) : ∀ (n : Nat) (a : List α),
    (fyAux js n a).Perm a
  | 0, a => List.Perm.refl a
  | n + 1, a =>
    (fyAux_perm js n _).trans (jsSwap_perm a (n + 1) (min (js (n + 1)) (n + 1)))

theorem jsShuffle_perm (js : Nat → Nat) (arr : List α) :
    (jsShuffle js arr).Perm arr :=
  fyAux_perm js (arr.length - 1) arr

theorem jsInsertIdx_perm (i : Nat) (x : α) (l : List α) :
    (jsInsertIdx i x l).Perm (x :: l) :=
  List.perm_insertIdx x l (min_le_right i l.length)

theorem length_jsInsertIdx (i : Nat) (x : α) (l : List α) :
    (jsInsertIdx i x l).length = l.length + 1 :=
  List.length_insertIdx _ _ (min_le_right i l.length)

/-- The non-null cards of a row, in order. -/
def cardsOf (row : PlayerRow) : List Card := row.filterMap id

/-- A concrete sample card used by witnesses and counterexamples. -/
def mkCard (k : Nat) : Card :=
  { id := toString k, rank := "A", suit := "spades", color := "black",
    jokerImage := none }

/-! ### C6: moveWithinRow on invalid and valid indices -/

/-- C6 counterexample: with `fromIndex = 22` out of range on a 22-slot row,
`moveWithinRow` is not a no-op — `splice(22, 1)` removes nothing, yielding
`undefined`, which `splice(0, 0, undefined)` then inserts, growing the row
to 23 slots.  This refutes "returns the row unchanged (a silent no-op)". -/
theorem C6_counterexample :
    (List.replicate 22 (some (mkCard 0)) : PlayerRow).length = 22 ∧
    (moveWithinRow (List.replicate 22 (some (mkCard 0))) 22 0).length = 23 ∧
    moveWithinRow (List.replicate 22 (some (mkCard 0))) 22 0 ≠
      List.replicate 22 (some (mkCard 0)) := by decide

/-- C6 (amended): for valid indices `moveWithinRow` removes the element at
`fromIndex` and reinserts it at `toIndex`, preserving the row's length and
multiset; but on invalid indices it is NOT a silent no-op: an out-of-range
`fromIndex` inserts an extra empty slot (growing the row to 23), and an
out-of-range `toIndex` moves the removed element to the end of the row. -/
theorem C6_moveWithinRow (row : PlayerRow) (i j : Nat) :
    (i < row.length → j < row.length →
      (moveWithinRow row i j).length = row.length ∧
      (moveWithinRow row i j).Perm row) ∧
    (row.length ≤ i → moveWithinRow row i j = jsInsertIdx j none row) ∧
    (i < row.length → row.length - 1 ≤ j →
      moveWithinRow row i j = row.eraseIdx i ++ [(row[i]?).getD none]) := by
  refine ⟨fun hi _ => ?_, fun hi => ?_, fun hi hj => ?_⟩
  · have ha : row[i]? = some row[i] := List.getElem?_eq_getElem hi
    have hperm : (moveWithinRow row i j).Perm row := by
      unfold moveWithinRow
      rw [ha]
      exact (jsInsertIdx_perm _ _ _).trans (perm_cons_eraseIdx row i _ ha).symm
    exact ⟨hperm.length_eq, hperm⟩
  · unfold moveWithinRow
    rw [List.getElem?_eq_none hi, List.eraseIdx_of_length_le hi]
    rfl
  · unfold moveWithinRow jsInsertIdx
    have hlen : (row.eraseIdx i).length = row.length - 1 := by
      rw [List.length_eraseIdx]
      simp [hi]
    rw [hlen, min_eq_right hj, ← hlen, List.insertIdx_length_self]

/-- A small concrete row for the C6 witness. -/
def c6Row : PlayerRow := [some (mkCard 0), none]

/-- C6 witness: the amended theorem applied at concrete rows and indices,
one instance per branch. -/
theorem C6_witness :
    ((moveWithinRow c6Row 0 1).length = c6Row.length ∧
      (moveWithinRow c6Row 0 1).Perm c6Row) ∧
    moveWithinRow c6Row 2 0 = jsInsertIdx 0 none c6Row ∧
    moveWithinRow c6Row 0 5 = c6Row.eraseIdx 0 ++ [(c6Row[0]?).getD none] :=
  ⟨(C6_moveWithinRow c6Row 0 1).1 (by decide) (by decide),
   (C6_moveWithinRow c6Row 2 0).2.1 (by decide),
   (C6_moveWithinRow c6Row 0 5).2.2 (by decide) (by decide)⟩

/-! ### C5: moveBetweenRows -/

/-- C5 counterexample source row: one card, 21 empty slots. -/
def c5From : PlayerRow := some (mkCard 100) :: List.replicate 21 none

/-- C5 counterexample destination row: 22 cards, no empty slot. -/
def c5To : PlayerRow := (List.range 22).map (fun k => some (mkCard k))

/-- C5 counterexample: when the destination row is full (no `null` slot),
the grown 23-slot row contains no `null`, so `pop()` drops the final card —
the combined multiset of non-null cards is NOT preserved (22 cards remain
of the original 23).  This refutes the multiset-preservation clause, which
the claim asserts for every pair of 22-slot rows. -/
theorem C5_counterexample :
    ¬ ((cardsOf (moveBetweenRows c5From c5To 0 0).1 ++
        cardsOf (moveBetweenRows c5From c5To 0 0).2).Perm
       (cardsOf c5From ++ cardsOf c5To)) := by decide

/-- C5 (amended): for 22-slot rows, valid indices, a card at `fromIndex`,
and a destination row that has at least one empty slot, `moveBetweenRows`
returns rows of length 22, the removed destination slot is the last `null`
of the grown row, and the combined multiset of non-null cards is preserved.
(When the destination row is full the final card is truncated instead, as
the counterexample shows.) -/
theorem C5_moveBetweenRows (fromRow toRow : PlayerRow) (i j : Nat) (c : Card)
    (hf : fromRow.length = 22) (ht : toRow.length = 22)
    (hi : i < 22) (hj : j < 22)
    (hc : fromRow[i]? = some (some c)) (hnull : none ∈ toRow) :
    (moveBetweenRows fromRow toRow i j).1.length = 22 ∧
    (moveBetweenRows fromRow toRow i j).2.length = 22 ∧
    (∃ k, lastNullIdx (jsInsertIdx j (some c) toRow) = some k ∧
      (jsInsertIdx j (some c) toRow)[k]? = some none ∧
      (moveBetweenRows fromRow toRow i j).2 =
        (jsInsertIdx j (some c) toRow).eraseIdx k) ∧
    ((cardsOf (moveBetweenRows fromRow toRow i j).1 ++
      cardsOf (moveBetweenRows fromRow toRow i j).2).Perm
     (cardsOf fromRow ++ cardsOf toRow)) := by
  have hgmem : none ∈ jsInsertIdx j (some c) toRow :=
    ((jsInsertIdx_perm j (some c) toRow).mem_iff).mpr (List.mem_cons_of_mem _ hnull)
  obtain ⟨k, hk⟩ := lastNullIdx_of_mem _ hgmem
  obtain ⟨hkel, hklt⟩ := lastNullIdx_spec _ k hk
  have hglen : (jsInsertIdx j (some c) toRow).length = 23 := by
    rw [length_jsInsertIdx, ht]
  have hdef : moveBetweenRows fromRow toRow i j =
      (fromRow.eraseIdx i ++ [none], (jsInsertIdx j (some c) toRow).eraseIdx k) := by
    unfold moveBetweenRows
    rw [hc]
    simp only [Option.getD_some, hk]
  have hi' : i < fromRow.length := by rw [hf]; exact hi
  have hlen1 : (fromRow.eraseIdx i ++ [none]).length = 22 := by
    rw [List.length_append, List.length_eraseIdx, if_pos hi', hf]
    rfl
  have hlen2 : ((jsInsertIdx j (some c) toRow).eraseIdx k).length = 22 := by
    rw [List.length_eraseIdx, if_pos hklt, hglen]
  refine ⟨by rw [hdef]; exact hlen1, by rw [hdef]; exact hlen2,
    ⟨k, hk, hkel, by rw [hdef]⟩, ?_⟩
  rw [hdef]
  have hcards1 : cardsOf (fromRow.eraseIdx i ++ [none]) = cardsOf (fromRow.eraseIdx i) := by
    unfold cardsOf
    rw [List.filterMap_append]
    simp
  have hpermF : (cardsOf fromRow).Perm (c :: cardsOf (fromRow.eraseIdx i)) := by
    have := (perm_cons_eraseIdx fromRow i (some c) hc).filterMap id
    simpa [cardsOf] using this
  have hpermG : (cardsOf (jsInsertIdx j (some c) toRow)).Perm (c :: cardsOf toRow) := by
    have := (jsInsertIdx_perm j (some c) toRow).filterMap id
    simpa [cardsOf] using this
  have hpermE : (cardsOf (jsInsertIdx j (some c) toRow)).Perm
      (cardsOf ((jsInsertIdx j (some c) toRow).eraseIdx k)) := by
    have := (perm_cons_eraseIdx _ k none hkel).filterMap id
    simpa [cardsOf] using this
  rw [hcards1]
  refine List.Perm.trans (List.Perm.append_left _ (hpermE.symm.trans hpermG)) ?_
  refine List.Perm.trans List.perm_middle ?_
  exact (List.Perm.append_right _ hpermF).symm

/-- Concrete rows for the C5 witness: destination has an empty slot. -/
def c5wTo : PlayerRow := some (mkCard 50) :: none :: List.replicate 20 (some (mkCard 51))

/-- C5 witness: the amended theorem applied at concrete inputs. -/
theorem C5_witness :
    (moveBetweenRows c5From c5wTo 0 3).1.length = 22 ∧
    (moveBetweenRows c5From c5wTo 0 3).2.length = 22 ∧
    (∃ k, lastNullIdx (jsInsertIdx 3 (some (mkCard 100)) c5wTo) = some k ∧
      (jsInsertIdx 3 (some (mkCard 100)) c5wTo)[k]? = some none ∧
      (moveBetweenRows c5From c5wTo 0 3).2 =
        (jsInsertIdx 3 (some (mkCard 100)) c5wTo).eraseIdx k) ∧
    ((cardsOf (moveBetweenRows c5From c5wTo 0 3).1 ++
      cardsOf (moveBetweenRows c5From c5wTo 0 3).2).Perm
     (cardsOf c5From ++ cardsOf c5wTo)) :=
  C5_moveBetweenRows c5From c5wTo 0 3 (mkCard 100) (by decide) (by decide)
    (by decide) (by decide) (by decide) (by decide)

/-! ### Concrete states for witnesses and counterexamples -/

/-- A concrete board: one card in hand, empty table. -/
def mkBoard (pid : String) (host : Bool) : PlayerBoard :=
  { id := pid, name := pid, isHost := host,
    handRow := some (mkCard 1) :: List.replicate 21 none,
    tableRow := List.replicate 22 none,
    submitted := false, finished := false }

/-- A concrete 3-player playing state with `p1` active. -/
def baseState : GameState :=
  { id := "g", inviteCode := "ROOM", status := "playing", hostId := "p1",
    playerOrder := ["p1", "p2", "p3"], activePlayerId := "p1",
    deck := [mkCard 10, mkCard 11], discardPile := [mkCard 20],
    players := [("p1", mkBoard "p1" true), ("p2", mkBoard "p2" false),
                ("p3", mkBoard "p3" false)],
    lastDiscardInfo := emptyDiscardInfo,
    hasDrawnThisTurn := false, hasDiscardedThisTurn := false,
    trumpCard := some (mkCard 30), trumpViewers := [],
    pendingTrumpRequest := none }

/-! ### C4: declare finish preconditions -/

/-- C4 counterexample: `p2` is not the active player, yet declare-finish
succeeds (the handler checks only that the discard pile is non-empty — it
has no status check and no active-player check).  This refutes "in every
other state it is rejected and the GameState is unchanged". -/
theorem C4_counterexample :
    baseState.status = "playing" ∧ baseState.activePlayerId ≠ "p2" ∧
    (handleDeclareFinish "p2" baseState).1.status = "finished" ∧
    (handleDeclareFinish "p2" baseState).1 ≠ baseState := by decide

/-- C4 (amended): declare finish succeeds — marking the actor
`finished = true`, setting `status = "finished"` and
`lastDiscardInfo.faceDown = true` — exactly when the discard pile is
non-empty, for any actor and in any status; with an empty discard pile the
state is unchanged. -/
theorem C4_declareFinish (s : GameState) (p : String) (b : PlayerBoard)
    (hp : getPlayer s.players p = some b) :
    (s.discardPile = [] → (handleDeclareFinish p s).1 = s) ∧
    (s.discardPile ≠ [] →
      (handleDeclareFinish p s).1 =
        { s with players := setPlayer s.players p { b with finished := true },
                 status := "finished",
                 lastDiscardInfo := { s.lastDiscardInfo with faceDown := true } }) := by
  constructor
  · intro hpile
    simp [handleDeclareFinish, updateAndBroadcast, declareFinishUpdater, hpile]
  · intro hpile
    have hlen : ¬ s.discardPile.length = 0 := by simpa using hpile
    simp [handleDeclareFinish, updateAndBroadcast, declareFinishUpdater, hlen, hp]

/-- C4 witness: both branches of the amended theorem at concrete states. -/
theorem C4_witness :
    (handleDeclareFinish "p1" { baseState with discardPile := [] }).1 =
      { baseState with discardPile := [] } ∧
    (handleDeclareFinish "p2" baseState).1 =
      { baseState with
          players := setPlayer baseState.players "p2"
            { mkBoard "p2" false with finished := true },
          status := "finished",
          lastDiscardInfo := { baseState.lastDiscardInfo with faceDown := true } } :=
  ⟨(C4_declareFinish { baseState with discardPile := [] } "p1" (mkBoard "p1" true)
      (by decide)).1 (by decide),
   (C4_declareFinish baseState "p2" (mkBoard "p2" false) (by decide)).2
      (by decide)⟩

/-! ### C3: precondition failures and broadcasts -/

/-- C3 counterexample: with `p1` active and `hasDrawnThisTurn` already true,
the draw is rejected and the snapshot is unchanged — but the handler still
publishes one `state` message carrying that unchanged snapshot (the updater
returns `prev`, which is truthy, so `updateAndBroadcast` sends it).  This
refutes "publishes no message on the channel". -/
theorem C3_counterexample :
    (handleDrawFromDeck "p1" { baseState with hasDrawnThisTurn := true }).1 =
      { baseState with hasDrawnThisTurn := true } ∧
    (handleDrawFromDeck "p1" { baseState with hasDrawnThisTurn := true }).2 =
      [{ baseState with hasDrawnThisTurn := true }] := by decide

/-- C3 (amended): every listed precondition failure leaves the local
snapshot unchanged, but the handler REBROADCASTS the unchanged snapshot as
one `state` message (result `(s, [s])`), because the updaters signal
rejection by returning `prev` rather than `null`.  Only the outer guards
(actor not active, missing player) publish nothing. -/
theorem C3_rejectedBroadcast (s : GameState) (p : String) (b : PlayerBoard)
    (hp : getPlayer s.players p = some b) (hact : s.activePlayerId = b.id) :
    (s.hasDrawnThisTurn = true → handleDrawFromDeck p s = (s, [s])) ∧
    (s.deck = [] → handleDrawFromDeck p s = (s, [s])) ∧
    (∀ r i, s.hasDiscardedThisTurn = true → handleDiscardCard p r i s = (s, [s])) ∧
    (∀ i, (∀ c, b.handRow[i]? ≠ some (some c)) →
      handleDiscardCard p "hand" i s = (s, [s])) ∧
    (∀ i, (∀ c, b.tableRow[i]? ≠ some (some c)) →
      handleDiscardCard p "table" i s = (s, [s])) ∧
    (s.lastDiscardInfo.ownerId ≠ some p → handleUndoDiscard p s = (s, [s])) ∧
    (s.lastDiscardInfo.faceDown = true → handleUndoDiscard p s = (s, [s])) ∧
    (∀ q bq, getPlayer s.players q = some bq →
      (∀ req, s.pendingTrumpRequest = some req → req.approverId ≠ bq.id) →
      handleApproveTrump q s = (s, [s]) ∧ handleRejectTrump q s = (s, [s])) := by
  refine ⟨?_, ?_, ?_, ?_, ?_, ?_, ?_, ?_⟩
  · intro h
    simp [handleDrawFromDeck, hp, hact, updateAndBroadcast, drawFromDeckUpdater, h]
  · intro h
    cases hdrawn : s.hasDrawnThisTurn <;>
      simp [handleDrawFromDeck, hp, hact, updateAndBroadcast, drawFromDeckUpdater,
        hdrawn, h]
  · intro r i h
    simp [handleDiscardCard, hp, hact, updateAndBroadcast, discardCardUpdater, h]
  · intro i h
    cases hdisc : s.hasDiscardedThisTurn
    · cases hslot : b.handRow[i]? with
      | none =>
        simp [handleDiscardCard, hp, hact, updateAndBroadcast, discardCardUpdater,
          hdisc, hslot]
      | some oc =>
        cases oc with
        | none =>
          simp [handleDiscardCard, hp, hact, updateAndBroadcast, discardCardUpdater,
            hdisc, hslot]
        | some c => exact absurd hslot (h c)
    · simp [handleDiscardCard, hp, hact, updateAndBroadcast, discardCardUpdater, hdisc]
  · intro i h
    cases hdisc : s.hasDiscardedThisTurn
    · cases hslot : b.tableRow[i]? with
      | none =>
        simp [handleDiscardCard, hp, hact, updateAndBroadcast, discardCardUpdater,
          hdisc, hslot]
      | some oc =>
        cases oc with
        | none =>
          simp [handleDiscardCard, hp, hact, updateAndBroadcast, discardCardUpdater,
            hdisc, hslot]
        | some c => exact absurd hslot (h c)
    · simp [handleDiscardCard, hp, hact, updateAndBroadcast, discardCardUpdater, hdisc]
  · intro h
    simp only [handleUndoDiscard, hp, hact, updateAndBroadcast, undoDiscardUpdater]
    rw [if_pos (Or.inr (Or.inl h))]
    simp
  · intro h
    simp only [handleUndoDiscard, hp, hact, updateAndBroadcast, undoDiscardUpdater]
    rw [if_pos (Or.inr (Or.inr h))]
    simp
  · intro q bq hq hreq
    constructor
    · cases hpend : s.pendingTrumpRequest with
      | none =>
        cases htr : s.trumpCard <;>
          simp [handleApproveTrump, hq, updateAndBroadcast, approveTrumpUpdater,
            hpend, htr]
      | some req =>
        cases htr : s.trumpCard with
        | none =>
          simp [handleApproveTrump, hq, updateAndBroadcast, approveTrumpUpdater,
            hpend, htr]
        | some tc =>
          simp only [handleApproveTrump, hq, updateAndBroadcast, approveTrumpUpdater,
            hpend, htr]
          rw [if_pos (Or.inl (hreq req hpend))]
    · cases hpend : s.pendingTrumpRequest with
      | none =>
        simp [handleRejectTrump, hq, updateAndBroadcast, rejectTrumpUpdater, hpend]
      | some req =>
        simp only [handleRejectTrump, hq, updateAndBroadcast, rejectTrumpUpdater,
          hpend]
        rw [if_pos (Or.inl (hreq req hpend))]

/-- C3 witness: the amended theorem applied at concrete states — a
rejected draw, a rejected undo-discard (no recorded owner), and a rejected
approve/reject (no pending request), all yielding `(s, [s])`. -/
theorem C3_witness :
    handleDrawFromDeck "p1" { baseState with hasDrawnThisTurn := true } =
      ({ baseState with hasDrawnThisTurn := true },
       [{ baseState with hasDrawnThisTurn := true }]) ∧
    handleUndoDiscard "p1" baseState = (baseState, [baseState]) ∧
    handleApproveTrump "p2" baseState = (baseState, [baseState]) ∧
    handleRejectTrump "p2" baseState = (baseState, [baseState]) :=
  ⟨(C3_rejectedBroadcast { baseState with hasDrawnThisTurn := true } "p1"
      (mkBoard "p1" true) (by decide) (by decide)).1 (by decide),
   (C3_rejectedBroadcast baseState "p1" (mkBoard "p1" true) (by decide)
      (by decide)).2.2.2.2.2.1 (by decide),
   ((C3_rejectedBroadcast baseState "p1" (mkBoard "p1" true) (by decide)
      (by decide)).2.2.2.2.2.2.2 "p2" (mkBoard "p2" false) (by decide)
      (by decide)).1,
   ((C3_rejectedBroadcast baseState "p1" (mkBoard "p1" true) (by decide)
      (by decide)).2.2.2.2.2.2.2 "p2" (mkBoard "p2" false) (by decide)
      (by decide)).2⟩

/-! ### C10: undo-finish frame property on other players -/

/-- C10: undo-finish never modifies the `finished` flag of any player other
than its caller (frame conjunct, for every state); in the scenario where
`lastDiscardInfo` records owner `P` face-down while a different player `Q`
is the one marked finished, `P`'s undo-finish returns the status to
`"playing"` and sets `P.finished := false`, but `Q.finished` stays true. -/
theorem C10_undoFinishFrame (s : GameState) (P Q : String) (bP bQ : PlayerBoard)
    (hface : s.lastDiscardInfo.faceDown = true)
    (howner : s.lastDiscardInfo.ownerId = some P)
    (hP : getPlayer s.players P = some bP)
    (hQ : getPlayer s.players Q = some bQ)
    (hne : Q ≠ P) (hQfin : bQ.finished = true)
    (hpile : s.discardPile ≠ []) :
    (handleUndoFinish P s).1.status = "playing" ∧
    (∃ b2, getPlayer (handleUndoFinish P s).1.players P = some b2 ∧
      b2.finished = false) ∧
    (getPlayer (handleUndoFinish P s).1.players Q = some bQ ∧ bQ.finished = true) ∧
    (∀ (t : GameState) (q : String) (bq : PlayerBoard), q ≠ P →
      getPlayer t.players q = some bq →
      getPlayer (handleUndoFinish P t).1.players q = some bq) := by
  have hguard : ¬ (¬ s.lastDiscardInfo.faceDown = true ∨
      s.lastDiscardInfo.ownerId ≠ some P) :=
    fun h => h.elim (fun h1 => h1 hface) (fun h2 => h2 howner)
  rcases s.discardPile.eq_nil_or_concat with hnil | ⟨L, c, hL⟩
  · exact absurd hnil hpile
  have hlast : s.discardPile.getLast? = some c := by
    rw [hL, List.concat_eq_append]
    exact List.getLast?_concat L
  have hframe : ∀ (t : GameState) (q : String) (bq : PlayerBoard), q ≠ P →
      getPlayer t.players q = some bq →
      getPlayer (handleUndoFinish P t).1.players q = some bq := by
    intro t q bq hq hbq
    simp only [handleUndoFinish, updateAndBroadcast, undoFinishUpdater]
    by_cases hg : ¬ t.lastDiscardInfo.faceDown = true ∨
        t.lastDiscardInfo.ownerId ≠ some P
    · rw [if_pos hg]; exact hbq
    · rw [if_neg hg]
      cases hl : t.discardPile.getLast? with
      | none => exact hbq
      | some card =>
        cases hb : getPlayer t.players P with
        | none => exact hbq
        | some board =>
          simpa [getPlayer_setPlayer_ne _ P q _ hq] using hbq
  refine ⟨?_, ?_, ⟨?_, hQfin⟩, hframe⟩
  · simp only [handleUndoFinish, updateAndBroadcast, undoFinishUpdater]
    rw [if_neg hguard, hlast]
    simp [hP]
  · simp only [handleUndoFinish, updateAndBroadcast, undoFinishUpdater]
    rw [if_neg hguard, hlast]
    simp only [hP]
    exact ⟨_, getPlayer_setPlayer_self _ _ _, rfl⟩
  · exact hframe s Q bQ hne hQ

/-- A concrete state for the C10 witness: `p1` discarded (owner of the
face-down record) while `p2` declared finish. -/
def c10State : GameState :=
  { baseState with
      discardPile := [mkCard 20, mkCard 2],
      status := "finished",
      lastDiscardInfo :=
        { ownerId := some "p1", fromRow := some "hand", fromIndex := some 0,
          faceDown := true },
      players := [("p1", mkBoard "p1" true),
                  ("p2", { mkBoard "p2" false with finished := true }),
                  ("p3", mkBoard "p3" false)] }

/-- C10 witness: the theorem applied at the concrete state. -/
theorem C10_witness :
    (handleUndoFinish "p1" c10State).1.status = "playing" ∧
    (∃ b2, getPlayer (handleUndoFinish "p1" c10State).1.players "p1" = some b2 ∧
      b2.finished = false) ∧
    (getPlayer (handleUndoFinish "p1" c10State).1.players "p2" =
        some { mkBoard "p2" false with finished := true } ∧
      ({ mkBoard "p2" false with finished := true } : PlayerBoard).finished = true) ∧
    (∀ (t : GameState) (q : String) (bq : PlayerBoard), q ≠ "p1" →
      getPlayer t.players q = some bq →
      getPlayer (handleUndoFinish "p1" t).1.players q = some bq) :=
  C10_undoFinishFrame c10State "p1" "p2" (mkBoard "p1" true)
    { mkBoard "p2" false with finished := true }
    (by decide) (by decide) (by decide) (by decide) (by decide) (by decide)
    (by decide)

/-! ### C8: trump request approver computation -/

/-- C8: when a request is created (trump present, no pending request,
requester not a viewer, requester active), the approver is the player
immediately after the requesting host in `playerOrder` — wrapping to
index 0 when the host is last — and the host for a non-host requester. -/
theorem C8_requestTrumpApprover (s : GameState) (p : String) (b : PlayerBoard)
    (hp : getPlayer s.players p = some b) (hact : s.activePlayerId = b.id)
    (htr : s.trumpCard ≠ none)
    (hpend : ∀ req, s.pendingTrumpRequest = some req → req.status ≠ "pending")
    (hview : b.id ∉ s.trumpViewers) :
    (b.isHost = true → ∀ k, s.playerOrder.indexOf b.id = k →
      k < s.playerOrder.length →
      ((k + 1 < s.playerOrder.length →
        ∃ a, s.playerOrder[k + 1]? = some a ∧
          (handleRequestTrump p s).1.pendingTrumpRequest =
            some { requesterId := b.id, approverId := a, status := "pending" }) ∧
       (k + 1 = s.playerOrder.length →
        ∃ a, s.playerOrder[0]? = some a ∧
          (handleRequestTrump p s).1.pendingTrumpRequest =
            some { requesterId := b.id, approverId := a, status := "pending" }))) ∧
    (b.isHost = false →
      (handleRequestTrump p s).1.pendingTrumpRequest =
        some { requesterId := b.id, approverId := s.hostId, status := "pending" }) := by
  have hpendB : s.pendingTrumpRequest.any (fun req => req.status = "pending") = false := by
    cases hr : s.pendingTrumpRequest with
    | none => rfl
    | some req => simpa [Option.any] using hpend req hr
  have hviewB : s.trumpViewers.contains b.id = false := by
    rw [← Bool.not_eq_true]
    intro hc
    exact hview (by simpa using hc)
  constructor
  · intro hhost k hk hklt
    have hmem : b.id ∈ s.playerOrder := List.indexOf_lt_length.mp (hk ▸ hklt)
    have hcont : s.playerOrder.contains b.id = true := by simpa using hmem
    constructor
    · intro hlt
      refine ⟨s.playerOrder[k + 1], List.getElem?_eq_getElem hlt, ?_⟩
      simp only [handleRequestTrump, hp, hact, updateAndBroadcast,
        requestTrumpUpdater, hpendB, hviewB, hhost, hcont, hk]
      simp [htr, hact, Nat.mod_eq_of_lt hlt, List.getElem?_eq_getElem hlt]
    · intro heq
      have hpos : 0 < s.playerOrder.length := Nat.lt_of_le_of_lt (Nat.zero_le k) hklt
      refine ⟨s.playerOrder[0], List.getElem?_eq_getElem hpos, ?_⟩
      simp only [handleRequestTrump, hp, hact, updateAndBroadcast,
        requestTrumpUpdater, hpendB, hviewB, hhost, hcont, hk]
      simp [htr, hact, heq, Nat.mod_self, List.getElem?_eq_getElem hpos]
  · intro hhost
    simp only [handleRequestTrump, hp, hact, updateAndBroadcast,
      requestTrumpUpdater, hpendB, hviewB, hhost]
    simp [htr, hact]

/-- C8 witness states: a host requester sitting last in turn order (the
wrap-around case) and a non-host requester. -/
def c8WrapState : GameState :=
  { baseState with playerOrder := ["p2", "p3", "p1"] }

/-- C8 witness: the theorem applied at concrete states — host first in
order, host last in order (wrap to index 0), and a non-host requester. -/
theorem C8_witness :
    (∃ a, baseState.playerOrder[1]? = some a ∧
      (handleRequestTrump "p1" baseState).1.pendingTrumpRequest =
        some { requesterId := "p1", approverId := a, status := "pending" }) ∧
    (∃ a, c8WrapState.playerOrder[0]? = some a ∧
      (handleRequestTrump "p1" c8WrapState).1.pendingTrumpRequest =
        some { requesterId := "p1", approverId := a, status := "pending" }) ∧
    (handleRequestTrump "p2" { baseState with activePlayerId := "p2" }).1.pendingTrumpRequest =
      some { requesterId := "p2", approverId := "p1", status := "pending" } :=
  ⟨((C8_requestTrumpApprover baseState "p1" (mkBoard "p1" true) (by decide)
      (by decide) (by decide) (fun req hreq => by simp [baseState] at hreq)
      (by decide)).1 (by decide) 0 (by decide) (by decide)).1 (by decide),
   ((C8_requestTrumpApprover c8WrapState "p1" (mkBoard "p1" true) (by decide)
      (by decide) (by decide) (fun req hreq => by simp [c8WrapState, baseState] at hreq)
      (by decide)).1 (by decide) 2 (by decide) (by decide)).2 (by decide),
   (C8_requestTrumpApprover { baseState with activePlayerId := "p2" } "p2"
      (mkBoard "p2" false) (by decide) (by decide) (by decide)
      (fun req hreq => by simp [baseState] at hreq) (by decide)).2 (by decide)⟩

/-! ### C7: discard followed by undo-discard -/

/-- C7: discarding a card from a hand or table slot and immediately undoing
the discard (same player, no intervening action) restores the hand row, the
table row and the discard pile exactly, clears `hasDiscardedThisTurn` and
clears `lastDiscardInfo`. -/
theorem C7_discardUndoDiscard (s : GameState) (p : String) (b : PlayerBoard)
    (i : Nat) (c : Card) (r : String)
    (hp : getPlayer s.players p = some b) (hact : s.activePlayerId = b.id)
    (hdisc : s.hasDiscardedThisTurn = false)
    (hslot : (r = "hand" ∧ b.handRow[i]? = some (some c)) ∨
             (r = "table" ∧ b.tableRow[i]? = some (some c))) :
    (handleUndoDiscard p (handleDiscardCard p r i s).1).1.discardPile =
      s.discardPile ∧
    (∃ b2, getPlayer (handleUndoDiscard p (handleDiscardCard p r i s).1).1.players p
        = some b2 ∧ b2.handRow = b.handRow ∧ b2.tableRow = b.tableRow) ∧
    (handleUndoDiscard p (handleDiscardCard p r i s).1).1.hasDiscardedThisTurn
      = false ∧
    (handleUndoDiscard p (handleDiscardCard p r i s).1).1.lastDiscardInfo
      = emptyDiscardInfo := by
  rcases hslot with ⟨hr, hs⟩ | ⟨hr, hs⟩ <;> subst hr
  · have hs1 : (handleDiscardCard p "hand" i s).1 =
        { s with
          players := setPlayer s.players p
            { b with handRow := b.handRow.eraseIdx i ++ [none] },
          discardPile := s.discardPile ++ [c],
          hasDiscardedThisTurn := true,
          lastDiscardInfo :=
            { ownerId := some p, fromRow := some "hand", fromIndex := some i,
              faceDown := false } } := by
      simp [handleDiscardCard, hp, hact, updateAndBroadcast, discardCardUpdater,
        hdisc, hs]
    have hrestore := row_restore b.handRow i (some c) none hs
    rw [hs1]
    simp only [handleUndoDiscard, updateAndBroadcast, undoDiscardUpdater,
      getPlayer_setPlayer_self, reinsertRows, List.getLast?_concat]
    simp [hact, hrestore, List.dropLast_concat, getPlayer_setPlayer_self]
  · have hs1 : (handleDiscardCard p "table" i s).1 =
        { s with
          players := setPlayer s.players p
            { b with tableRow := b.tableRow.eraseIdx i ++ [none] },
          discardPile := s.discardPile ++ [c],
          hasDiscardedThisTurn := true,
          lastDiscardInfo :=
            { ownerId := some p, fromRow := some "table", fromIndex := some i,
              faceDown := false } } := by
      simp [handleDiscardCard, hp, hact, updateAndBroadcast, discardCardUpdater,
        hdisc, hs]
    have hrestore := row_restore b.tableRow i (some c) none hs
    rw [hs1]
    simp only [handleUndoDiscard, updateAndBroadcast, undoDiscardUpdater,
      getPlayer_setPlayer_self, reinsertRows, List.getLast?_concat]
    simp [hact, hrestore, List.dropLast_concat, getPlayer_setPlayer_self]

/-- C7 witness: the theorem applied at the concrete base state (discard of
the hand card at slot 0 by the active player `p1`, then undo). -/
theorem C7_witness :
    (handleUndoDiscard "p1" (handleDiscardCard "p1" "hand" 0 baseState).1).1.discardPile
      = baseState.discardPile ∧
    (∃ b2, getPlayer
        (handleUndoDiscard "p1" (handleDiscardCard "p1" "hand" 0 baseState).1).1.players
        "p1" = some b2 ∧
      b2.handRow = (mkBoard "p1" true).handRow ∧
      b2.tableRow = (mkBoard "p1" true).tableRow) ∧
    (handleUndoDiscard "p1" (handleDiscardCard "p1" "hand" 0 baseState).1).1.hasDiscardedThisTurn
      = false ∧
    (handleUndoDiscard "p1" (handleDiscardCard "p1" "hand" 0 baseState).1).1.lastDiscardInfo
      = emptyDiscardInfo :=
  C7_discardUndoDiscard baseState "p1" (mkBoard "p1" true) 0 (mkCard 1) "hand"
    (by decide) (by decide) (by decide) (Or.inl ⟨rfl, by decide⟩)

/-! ### C2: undo-finish after declare-finish -/

/-- A concrete state in which `p1` has already discarded this turn (the
discarded card `mkCard 2` sits on top of the pile, recorded in
`lastDiscardInfo`). -/
def c2State : GameState :=
  { baseState with
      discardPile := [mkCard 20, mkCard 2],
      hasDiscardedThisTurn := true,
      lastDiscardInfo :=
        { ownerId := some "p1", fromRow := some "hand", fromIndex := some 0,
          faceDown := false } }

/-- C2 counterexample: declare-finish followed by undo-finish does NOT
restore the pre-finish discard pile — `handleUndoFinish` additionally pops
the top discard back into the recorded row slot, so the pile is one card
shorter than immediately before declare-finish.  This refutes "restores the
exact pre-finish GameState". -/
theorem C2_counterexample :
    (handleUndoFinish "p1" (handleDeclareFinish "p1" c2State).1).1.discardPile ≠
      c2State.discardPile := by decide

/-- C2 (amended): after discard, declare-finish and undo-finish, the status
is back to `"playing"` and the caller's `finished` flag is false — but
undo-finish also reverses the discard itself: the discard pile and both
rows return to their pre-DISCARD values (not their pre-finish values),
`lastDiscardInfo` is cleared, and `hasDiscardedThisTurn` remains true (it
is not touched by either declare-finish or undo-finish). -/
theorem C2_undoFinishAfterDeclare (s : GameState) (p : String) (b : PlayerBoard)
    (i : Nat) (c : Card) (r : String)
    (hp : getPlayer s.players p = some b) (hact : s.activePlayerId = b.id)
    (hdisc : s.hasDiscardedThisTurn = false)
    (hslot : (r = "hand" ∧ b.handRow[i]? = some (some c)) ∨
             (r = "table" ∧ b.tableRow[i]? = some (some c))) :
    (handleUndoFinish p (handleDeclareFinish p (handleDiscardCard p r i s).1).1).1.status
      = "playing" ∧
    (handleUndoFinish p (handleDeclareFinish p (handleDiscardCard p r i s).1).1).1.discardPile
      = s.discardPile ∧
    (∃ b3, getPlayer
        (handleUndoFinish p (handleDeclareFinish p (handleDiscardCard p r i s).1).1).1.players
        p = some b3 ∧
      b3.handRow = b.handRow ∧ b3.tableRow = b.tableRow ∧ b3.finished = false) ∧
    (handleUndoFinish p (handleDeclareFinish p (handleDiscardCard p r i s).1).1).1.lastDiscardInfo
      = emptyDiscardInfo ∧
    (handleUndoFinish p (handleDeclareFinish p (handleDiscardCard p r i s).1).1).1.hasDiscardedThisTurn
      = true := by
  rcases hslot with ⟨hr, hs⟩ | ⟨hr, hs⟩ <;> subst hr
  · have hs1 : (handleDiscardCard p "hand" i s).1 =
        { s with
          players := setPlayer s.players p
            { b with handRow := b.handRow.eraseIdx i ++ [none] },
          discardPile := s.discardPile ++ [c],
          hasDiscardedThisTurn := true,
          lastDiscardInfo :=
            { ownerId := some p, fromRow := some "hand", fromIndex := some i,
              faceDown := false } } := by
      simp [handleDiscardCard, hp, hact, updateAndBroadcast, discardCardUpdater,
        hdisc, hs]
    rw [hs1]
    have hs2 : (handleDeclareFinish p
        { s with
          players := setPlayer s.players p
            { b with handRow := b.handRow.eraseIdx i ++ [none] },
          discardPile := s.discardPile ++ [c],
          hasDiscardedThisTurn := true,
          lastDiscardInfo :=
            { ownerId := some p, fromRow := some "hand", fromIndex := some i,
              faceDown := false } }).1 =
        { s with
          players := setPlayer s.players p
            { b with handRow := b.handRow.eraseIdx i ++ [none], finished := true },
          discardPile := s.discardPile ++ [c],
          hasDiscardedThisTurn := true,
          status := "finished",
          lastDiscardInfo :=
            { ownerId := some p, fromRow := some "hand", fromIndex := some i,
              faceDown := true } } := by
      simp [handleDeclareFinish, updateAndBroadcast, declareFinishUpdater,
        getPlayer_setPlayer_self, setPlayer_setPlayer]
    rw [hs2]
    have hrestore := row_restore b.handRow i (some c) none hs
    simp only [handleUndoFinish, updateAndBroadcast, undoFinishUpdater,
      getPlayer_setPlayer_self, reinsertRows, List.getLast?_concat]
    simp [hact, hrestore, List.dropLast_concat, getPlayer_setPlayer_self]
  · have hs1 : (handleDiscardCard p "table" i s).1 =
        { s with
          players := setPlayer s.players p
            { b with tableRow := b.tableRow.eraseIdx i ++ [none] },
          discardPile := s.discardPile ++ [c],
          hasDiscardedThisTurn := true,
          lastDiscardInfo :=
            { ownerId := some p, fromRow := some "table", fromIndex := some i,
              faceDown := false } } := by
      simp [handleDiscardCard, hp, hact, updateAndBroadcast, discardCardUpdater,
        hdisc, hs]
    rw [hs1]
    have hs2 : (handleDeclareFinish p
        { s with
          players := setPlayer s.players p
            { b with tableRow := b.tableRow.eraseIdx i ++ [none] },
          discardPile := s.discardPile ++ [c],
          hasDiscardedThisTurn := true,
          lastDiscardInfo :=
            { ownerId := some p, fromRow := some "table", fromIndex := some i,
              faceDown := false } }).1 =
        { s with
          players := setPlayer s.players p
            { b with tableRow := b.tableRow.eraseIdx i ++ [none], finished := true },
          discardPile := s.discardPile ++ [c],
          hasDiscardedThisTurn := true,
          status := "finished",
          lastDiscardInfo :=
            { ownerId := some p, fromRow := some "table", fromIndex := some i,
              faceDown := true } } := by
      simp [handleDeclareFinish, updateAndBroadcast, declareFinishUpdater,
        getPlayer_setPlayer_self, setPlayer_setPlayer]
    rw [hs2]
    have hrestore := row_restore b.tableRow i (some c) none hs
    simp only [handleUndoFinish, updateAndBroadcast, undoFinishUpdater,
      getPlayer_setPlayer_self, reinsertRows, List.getLast?_concat]
    simp [hact, hrestore, List.dropLast_concat, getPlayer_setPlayer_self]

/-- C2 witness: the amended theorem applied at the concrete base state. -/
theorem C2_witness :
    (handleUndoFinish "p1" (handleDeclareFinish "p1"
        (handleDiscardCard "p1" "hand" 0 baseState).1).1).1.status = "playing" ∧
    (handleUndoFinish "p1" (handleDeclareFinish "p1"
        (handleDiscardCard "p1" "hand" 0 baseState).1).1).1.discardPile
      = baseState.discardPile ∧
    (∃ b3, getPlayer (handleUndoFinish "p1" (handleDeclareFinish "p1"
        (handleDiscardCard "p1" "hand" 0 baseState).1).1).1.players "p1" = some b3 ∧
      b3.handRow = (mkBoard "p1" true).handRow ∧
      b3.tableRow = (mkBoard "p1" true).tableRow ∧ b3.finished = false) ∧
    (handleUndoFinish "p1" (handleDeclareFinish "p1"
        (handleDiscardCard "p1" "hand" 0 baseState).1).1).1.lastDiscardInfo
      = emptyDiscardInfo ∧
    (handleUndoFinish "p1" (handleDeclareFinish "p1"
        (handleDiscardCard "p1" "hand" 0 baseState).1).1).1.hasDiscardedThisTurn
      = true :=
  C2_undoFinishAfterDeclare baseState "p1" (mkBoard "p1" true) 0 (mkCard 1) "hand"
    (by decide) (by decide) (by decide) (Or.inl ⟨rfl, by decide⟩)

/-! ### C1: start game with 3 players -/

theorem length_filterMap_range (n : Nat) (f : Nat → Option α)
    (h : ∀ j, j < n → (f j).isSome) :
    ((List.range n).filterMap f).length = n := by
  induction n with
  | zero => simp
  | succ m ih =>
    rw [List.range_succ, List.filterMap_append]
    obtain ⟨a, ha⟩ := Option.isSome_iff_exists.mp (h m (Nat.lt_succ_self m))
    have hm := ih (fun j hj => h j (Nat.lt_succ_of_lt hj))
    simp [ha, hm]

theorem dealtHand_length (deckAll : List Card) (i : Nat) :
    (dealtHand deckAll i).length = 22 := by
  simp [dealtHand]

theorem dealtHand_split (deckAll : List Card) (i : Nat) :
    dealtHand deckAll i
      = (List.range 21).map (fun j => deckAll[21 * i + j]?) ++ [none] := by
  unfold dealtHand
  have h22 : List.range 22 = List.range 21 ++ [21] := List.range_succ 21
  rw [h22, List.map_append]
  have h1 : (List.range 21).map (fun j => if j < 21 then deckAll[21 * i + j]? else none)
      = (List.range 21).map (fun j => deckAll[21 * i + j]?) :=
    List.map_congr_left (fun j hj => if_pos (List.mem_range.mp hj))
  rw [h1]
  rfl

theorem cardsOf_dealtHand (deckAll : List Card) (i : Nat)
    (h : 21 * i + 21 ≤ deckAll.length) :
    (cardsOf (dealtHand deckAll i)).length = 21 := by
  rw [cardsOf, dealtHand_split, List.filterMap_append]
  have hnil : List.filterMap id ([none] : PlayerRow) = [] := by simp
  rw [hnil, List.append_nil, List.filterMap_map]
  refine length_filterMap_range 21 _ (fun j hj => ?_)
  have hidx : 21 * i + j < deckAll.length :=
    Nat.lt_of_lt_of_le (Nat.add_lt_add_left hj _) h
  show (deckAll[21 * i + j]?).isSome = true
  rw [List.getElem?_eq_getElem hidx]
  rfl

/-- C1 (amended): starting a 3-player game deals 21 cards to every hand row,
leaves table rows empty, puts 1 card on the discard pile and sets
`activePlayerId` to the chosen first player — and, PROVIDED the card at deck
position 63 (the first card after the deal) is not a joker, that card
becomes the trump and the deck retains exactly 100 cards.  (When that card
is a joker no trump is selected and the deck keeps 101 cards, as the
counterexample shows.) -/
theorem C1_startGame (s : GameState) (p1 p2 p3 A : String)
    (b1 b2 b3 : PlayerBoard) (deckAll : List Card) (tc : Card)
    (horder : s.playerOrder = [p1, p2, p3])
    (h12 : p1 ≠ p2) (h13 : p1 ≠ p3) (h23 : p2 ≠ p3)
    (hp1 : getPlayer s.players p1 = some b1)
    (hp2 : getPlayer s.players p2 = some b2)
    (hp3 : getPlayer s.players p3 = some b3)
    (hhost : b1.isHost = true)
    (hlen : deckAll.length = 165)
    (htrump : deckAll[63]? = some tc) (htc : ¬ tc.suit = "joker") :
    (handleStartGame p1 deckAll (some A) s).1.activePlayerId = A ∧
    (handleStartGame p1 deckAll (some A) s).1.discardPile.length = 1 ∧
    (handleStartGame p1 deckAll (some A) s).1.deck.length = 100 ∧
    (handleStartGame p1 deckAll (some A) s).1.trumpCard = some tc ∧
    (∀ q ∈ [p1, p2, p3], ∃ bq,
      getPlayer (handleStartGame p1 deckAll (some A) s).1.players q = some bq ∧
      (cardsOf bq.handRow).length = 21 ∧ bq.handRow.length = 22 ∧
      bq.tableRow = List.replicate 22 none) := by
  have h64 : (64 : Nat) < deckAll.length := by rw [hlen]; decide
  have henum : ([p1, p2, p3] : List String).enum = [(0, p1), (1, p2), (2, p3)] := rfl
  have hstart : startPlayers deckAll [p1, p2, p3] s.players =
      setPlayer (setPlayer (setPlayer [] p1
        { b1 with handRow := dealtHand deckAll 0,
                  tableRow := List.replicate 22 none,
                  submitted := false, finished := false }) p2
        { b2 with handRow := dealtHand deckAll 1,
                  tableRow := List.replicate 22 none,
                  submitted := false, finished := false }) p3
        { b3 with handRow := dealtHand deckAll 2,
                  tableRow := List.replicate 22 none,
                  submitted := false, finished := false } := by
    simp [startPlayers, henum, hp1, hp2, hp3]
  have hmain : (handleStartGame p1 deckAll (some A) s).1 =
      { s with
        players := startPlayers deckAll [p1, p2, p3] s.players,
        deck := deckAll.drop 65,
        discardPile := (deckAll[64]?).toList,
        status := "playing",
        activePlayerId := A,
        hasDrawnThisTurn := false,
        hasDiscardedThisTurn := false,
        lastDiscardInfo := emptyDiscardInfo,
        trumpCard := some tc,
        trumpViewers := [],
        pendingTrumpRequest := none } := by
    simp [handleStartGame, hp1, hhost, updateAndBroadcast, startGameUpdater,
      horder, htrump, htc]
  rw [hmain]
  refine ⟨rfl, ?_, ?_, rfl, ?_⟩
  · rw [List.getElem?_eq_getElem h64]
    rfl
  · simp [List.length_drop, hlen]
  · intro q hq
    have hcount : ∀ i, i < 3 → (cardsOf (dealtHand deckAll i)).length = 21 := by
      intro i hi
      refine cardsOf_dealtHand deckAll i ?_
      rw [hlen]
      interval_cases i <;> decide
    simp only [List.mem_cons, List.not_mem_nil, or_false] at hq
    rcases hq with hq | hq | hq
    · subst hq
      have hg : getPlayer (startPlayers deckAll [q, p2, p3] s.players) q =
          some { b1 with handRow := dealtHand deckAll 0,
                         tableRow := List.replicate 22 none,
                         submitted := false, finished := false } := by
        rw [hstart, getPlayer_setPlayer_ne _ _ _ _ h13,
          getPlayer_setPlayer_ne _ _ _ _ h12]
        exact getPlayer_setPlayer_self _ _ _
      exact ⟨_, hg, hcount 0 (by decide), dealtHand_length deckAll 0, rfl⟩
    · subst hq
      have hg : getPlayer (startPlayers deckAll [p1, q, p3] s.players) q =
          some { b2 with handRow := dealtHand deckAll 1,
                         tableRow := List.replicate 22 none,
                         submitted := false, finished := false } := by
        rw [hstart, getPlayer_setPlayer_ne _ _ _ _ h23]
        exact getPlayer_setPlayer_self _ _ _
      exact ⟨_, hg, hcount 1 (by decide), dealtHand_length deckAll 1, rfl⟩
    · subst hq
      have hg : getPlayer (startPlayers deckAll [p1, p2, q] s.players) q =
          some { b3 with handRow := dealtHand deckAll 2,
                         tableRow := List.replicate 22 none,
                         submitted := false, finished := false } := by
        rw [hstart]
        exact getPlayer_setPlayer_self _ _ _
      exact ⟨_, hg, hcount 2 (by decide), dealtHand_length deckAll 2, rfl⟩

/-- A joker card, used by the C1 counterexample. -/
def jokerCardC : Card :=
  { id := "jk", rank := "JOKER", suit := "joker", color := "red",
    jokerImage := some "/jokers/joker1.png" }

/-- A 165-card deck whose card at position 63 — the first card after
dealing 3 hands of 21 — is a joker. -/
def cexDeck : List Card :=
  (List.range 165).map (fun k => if k = 63 then jokerCardC else mkCard k)

/-- A lobby state with the same 3 players. -/
def lobbyState : GameState :=
  { baseState with
      status := "lobby"
      deck := []
      discardPile := []
      trumpCard := none }

set_option maxRecDepth 4000 in
/-- C1 counterexample: with a joker at deck position 63 the trump loop
`break`s immediately — no trump is selected, the joker itself becomes the
open discard card, and the deck keeps `165 - 63 - 1 = 101` cards, not 100.
This refutes the claim's "for every possible shuffled deck, including
shuffles where the card following the deal is a joker". -/
theorem C1_counterexample :
    cexDeck.length = 165 ∧
    (cexDeck[63]?).any (fun c => c.suit = "joker") = true ∧
    (handleStartGame "p1" cexDeck (some "p2") lobbyState).1.deck.length = 101 ∧
    (handleStartGame "p1" cexDeck (some "p2") lobbyState).1.trumpCard = none := by
  decide

/-- A 165-card deck with no jokers at all, for the C1 witness. -/
def okDeck : List Card := (List.range 165).map mkCard

set_option maxRecDepth 4000 in
/-- C1 witness: the amended theorem applied at a concrete lobby state and
deck. -/
theorem C1_witness :
    (handleStartGame "p1" okDeck (some "p2") lobbyState).1.activePlayerId = "p2" ∧
    (handleStartGame "p1" okDeck (some "p2") lobbyState).1.discardPile.length = 1 ∧
    (handleStartGame "p1" okDeck (some "p2") lobbyState).1.deck.length = 100 ∧
    (handleStartGame "p1" okDeck (some "p2") lobbyState).1.trumpCard
      = some (mkCard 63) ∧
    (∀ q ∈ ["p1", "p2", "p3"], ∃ bq,
      getPlayer (handleStartGame "p1" okDeck (some "p2") lobbyState).1.players q
        = some bq ∧
      (cardsOf bq.handRow).length = 21 ∧ bq.handRow.length = 22 ∧
      bq.tableRow = List.replicate 22 none) :=
  C1_startGame lobbyState "p1" "p2" "p3" "p2" (mkBoard "p1" true)
    (mkBoard "p2" false) (mkBoard "p3" false) okDeck (mkCard 63)
    (by decide) (by decide) (by decide) (by decide) (by decide) (by decide)
    (by decide) (by decide) (by decide) (by decide) (by decide)

/-! ### C9: deck generator -/

theorem map_range_getElem : ∀ (l : List β),
    (List.range l.length).map (fun j => l[j]?) = l.map some
  | [] => rfl
  | x :: xs => by
    rw [List.length_cons, List.range_succ_eq_map, List.map_cons, List.map_map,
      List.map_cons, List.getElem?_cons_zero]
    refine congrArg₂ _ rfl ?_
    refine Eq.trans ?_ (map_range_getElem xs)
    exact List.map_congr_left (fun j _ => List.getElem?_cons_succ)

theorem stdCards_length (ids : Nat → String) : (stdCards ids).length = 156 := by
  rw [stdCards, List.length_map, List.enum_length]
  decide

theorem jokerCards_length (ids : Nat → String) (jsImg : Nat → Nat) :
    (jokerCards ids jsImg).length = 9 := by
  rw [jokerCards, List.length_map, List.length_range]

theorem pickJokerImages_length (jsImg : Nat → Nat) :
    (pickJokerImages jsImg).length = 9 := by
  rw [pickJokerImages, List.length_take,
    (jsShuffle_perm jsImg JOKER_IMAGES).length_eq]
  decide

/-- C9 (amended): for every behavior of the random source the generated
deck has exactly 165 cards, exactly 3 of every non-joker (rank, suit)
pair, and exactly 9 jokers carrying 9 pairwise-distinct image references;
and PROVIDED the 165 `randomId()` results are pairwise distinct, no two
cards share an id.  (Without that proviso ids can collide — `randomId`
gives no uniqueness guarantee — as the counterexample shows.) -/
theorem C9_generateDeck (ids : Nat → String) (jsImg jsDeck : Nat → Nat)
    (hinj : ∀ k1 k2, k1 < 165 → k2 < 165 → ids k1 = ids k2 → k1 = k2) :
    (generateDeck ids jsImg jsDeck).length = 165 ∧
    (∀ r ∈ RANKS, ∀ su ∈ SUITS,
      (generateDeck ids jsImg jsDeck).countP
        (fun c => c.rank == r && c.suit == su) = 3) ∧
    (generateDeck ids jsImg jsDeck).countP (fun c => c.suit == "joker") = 9 ∧
    (((generateDeck ids jsImg jsDeck).filter (fun c => c.suit == "joker")).map
      (fun c => c.jokerImage)).Nodup ∧
    ((generateDeck ids jsImg jsDeck).map (fun c => c.id)).Nodup := by
  have hperm : (generateDeck ids jsImg jsDeck).Perm
      (stdCards ids ++ jokerCards ids jsImg) := jsShuffle_perm jsDeck _
  have hjokall : ∀ c ∈ jokerCards ids jsImg, (c.suit == "joker") = true := by
    intro c hc
    obtain ⟨j, hj, rfl⟩ := List.mem_map.mp hc
    rfl
  refine ⟨?_, ?_, ?_, ?_, ?_⟩
  · rw [hperm.length_eq, List.length_append, stdCards_length, jokerCards_length]
  · intro r hr su hsu
    rw [hperm.countP_eq, List.countP_append]
    have hstdc : (stdCards ids).countP (fun c => c.rank == r && c.suit == su)
        = stdPairs.enum.countP (fun x => x.2.1 == r && x.2.2 == su) := by
      rw [stdCards, List.countP_map]
      exact List.countP_congr (fun x _ => Iff.rfl)
    have hstd3 : ∀ r0 ∈ RANKS, ∀ su0 ∈ SUITS,
        stdPairs.enum.countP (fun x => x.2.1 == r0 && x.2.2 == su0) = 3 := by
      decide
    have hjr : ("JOKER" == r) = false :=
      (show ∀ r0 ∈ RANKS, ("JOKER" == r0) = false by decide) r hr
    have hjok0 : (jokerCards ids jsImg).countP
        (fun c => c.rank == r && c.suit == su) = 0 := by
      refine List.countP_eq_zero.mpr ?_
      intro c hc
      obtain ⟨j, hj, rfl⟩ := List.mem_map.mp hc
      show (("JOKER" == r) && ("joker" == su)) ≠ true
      rw [hjr]
      simp
    rw [hstdc, hstd3 r hr su hsu, hjok0]
  · have hstdj : (stdCards ids).countP (fun c => c.suit == "joker") = 0 := by
      refine List.countP_eq_zero.mpr ?_
      intro c hc
      obtain ⟨x, hx, rfl⟩ := List.mem_map.mp hc
      show (x.2.2 == "joker") ≠ true
      exact (show ∀ x0 ∈ stdPairs.enum, (x0.2.2 == "joker") ≠ true by decide) x hx
    have hjokj : (jokerCards ids jsImg).countP (fun c => c.suit == "joker") = 9 := by
      rw [List.countP_eq_length.mpr hjokall, jokerCards_length]
    rw [hperm.countP_eq, List.countP_append, hstdj, hjokj]
  · have hstd0 : (stdCards ids).filter (fun c => c.suit == "joker") = [] := by
      refine List.filter_eq_nil_iff.mpr ?_
      intro c hc
      obtain ⟨x, hx, rfl⟩ := List.mem_map.mp hc
      show (x.2.2 == "joker") ≠ true
      exact (show ∀ x0 ∈ stdPairs.enum, (x0.2.2 == "joker") ≠ true by decide) x hx
    have hfil : ((generateDeck ids jsImg jsDeck).filter
        (fun c => c.suit == "joker")).Perm (jokerCards ids jsImg) := by
      have h1 := hperm.filter (fun c => c.suit == "joker")
      rw [List.filter_append, hstd0, List.filter_eq_self.mpr hjokall] at h1
      simpa using h1
    have himg : (jokerCards ids jsImg).map (fun c => c.jokerImage)
        = (pickJokerImages jsImg).map some := by
      rw [jokerCards, List.map_map]
      have h0 := map_range_getElem (pickJokerImages jsImg)
      rw [pickJokerImages_length jsImg] at h0
      refine Eq.trans ?_ h0
      exact List.map_congr_left (fun j _ => rfl)
    have hpick : (pickJokerImages jsImg).Nodup := by
      have h30 : JOKER_IMAGES.Nodup := by decide
      exact List.Nodup.sublist (List.take_sublist 9 _)
        ((jsShuffle_perm jsImg JOKER_IMAGES).nodup_iff.mpr h30)
    have hmapped : ((jokerCards ids jsImg).map (fun c => c.jokerImage)).Nodup := by
      rw [himg]
      exact hpick.map (Option.some_injective String)
    have hh := List.Perm.map (fun c : Card => c.jokerImage) hfil
    exact (List.Perm.nodup_iff hh).mpr hmapped
  · have h2 : (stdCards ids).map (fun c => c.id) = (List.range 156).map ids := by
      have e1 : (stdCards ids).map (fun c => c.id)
          = stdPairs.enum.map (fun p => ids p.1) := by
        rw [stdCards, List.map_map]
        exact List.map_congr_left (fun p _ => rfl)
      have e2 : stdPairs.enum.map (fun p => ids p.1)
          = (stdPairs.enum.map Prod.fst).map ids := by
        rw [List.map_map]
        exact List.map_congr_left (fun p _ => rfl)
      rw [e1, e2, List.enum_map_fst]
      have hsl : stdPairs.length = 156 := by decide
      rw [hsl]
    have h5 : (jokerCards ids jsImg).map (fun c => c.id)
        = (List.range 9).map (fun j => ids (156 + j)) := by
      rw [jokerCards, List.map_map]
      exact List.map_congr_left (fun j _ => rfl)
    have h1 := hperm.map (fun c => c.id)
    rw [List.map_append, h2, h5] at h1
    have h165 : List.range 165
        = List.range 156 ++ (List.range 9).map (fun x => 156 + x) :=
      List.range_add 156 9
    have hid : ((generateDeck ids jsImg jsDeck).map (fun c => c.id)).Perm
        ((List.range 165).map ids) := by
      rw [h165, List.map_append, List.map_map]
      exact h1.trans (List.Perm.append_left _
        (List.Perm.of_eq (List.map_congr_left (fun j _ => rfl))))
    have hnodup165 : ((List.range 165).map ids).Nodup :=
      List.Nodup.map_on
        (fun x hx y hy hxy =>
          hinj x y (List.mem_range.mp hx) (List.mem_range.mp hy) hxy)
        (List.nodup_range 165)
    exact hid.nodup_iff.mpr hnodup165

set_option maxRecDepth 8000 in
/-- C9 counterexample: with a random source whose `randomId()` results all
collide (e.g. `Math.random()` returning the same value at the same
millisecond), every card gets the same id — the output is not duplicate-free
by id.  This refutes "no two cards in the output share the same id" as a
property of EVERY run of the generator. -/
theorem C9_counterexample :
    ¬ ((generateDeck (fun _ => "x") (fun _ => 0) (fun _ => 0)).map
        (fun c => c.id)).Nodup := by
  simp only [generateDeck]
  rw [((jsShuffle_perm (fun _ => 0) _).map (fun c : Card => c.id)).nodup_iff]
  decide

/-- An injective id stream for the C9 witness: the `k`-th id is the string
of `k` letters `a`. -/
def wIds : Nat → String := fun k => String.mk (List.replicate k 'a')

/-- C9 witness: the amended theorem applied at a concrete injective id
stream and concrete swap streams. -/
theorem C9_witness :
    (generateDeck wIds (fun _ => 1) (fun _ => 2)).length = 165 ∧
    (∀ r ∈ RANKS, ∀ su ∈ SUITS,
      (generateDeck wIds (fun _ => 1) (fun _ => 2)).countP
        (fun c => c.rank == r && c.suit == su) = 3) ∧
    (generateDeck wIds (fun _ => 1) (fun _ => 2)).countP
      (fun c => c.suit == "joker") = 9 ∧
    (((generateDeck wIds (fun _ => 1) (fun _ => 2)).filter
        (fun c => c.suit == "joker")).map (fun c => c.jokerImage)).Nodup ∧
    ((generateDeck wIds (fun _ => 1) (fun _ => 2)).map (fun c => c.id)).Nodup :=
  C9_generateDeck wIds (fun _ => 1) (fun _ => 2) (by
    intro k1 k2 _ _ h
    have h2 := congrArg (fun s => s.data.length) h
    simpa [wIds] using h2)

end CardGame
